import Mathlib

/-!
Shallow embedding of the core of the `Flow_Div_Matching` repository
(files `src/userfm/diffusion.py` and `src/userfm/callbacks.py`).

Conventions of the embedding:
* tensors are flat lists of rationals (`Tensor`); elementwise/broadcast
  arithmetic of `jax.numpy` becomes `List.map` / `List.zipWith`;
* JAX pytrees of parameters are flat association lists from leaf names to
  tensors (`ParamSet`); `jax.tree.map` over two trees becomes `tmap2`;
* PRNG keys are natural numbers; `jax.random.split` is an abstract
  function argument (the code never relies on its concrete values);
* opaque collaborators (the neural network `model.apply`, the diffusion
  process `sigma`/`scale`/`noise_input`/..., the optax optimizer, the SDE
  integrator `samplers.sde_sample`) are function arguments, exactly as the
  spec designates them external capabilities;
* filesystem paths (`pathlib.Path`) are a list of parent components plus a
  final name; `Path.stem` is embedded with CPython's exact semantics;
* the filesystem seen by the checkpoint code is an association list from
  directory (component list) to stored parameter tree.
-/

namespace UserFM

/-- A tensor, flattened to its list of entries (exact rationals stand in
for the floating-point values; overflow/rounding is not modelled). -/
abbrev Tensor := List ℚ

/-- A JAX pytree of parameters, flattened to an association list from leaf
name to leaf tensor. -/
abbrev ParamSet := List (String × Tensor)

/-- A PRNG key (`jax.random.PRNGKey`), abstracted to a natural number. -/
abbrev Key := Nat

/-- The leaf names of a parameter tree. -/
def keysOf (p : ParamSet) : List String := p.map Prod.fst

/-- The leaf shapes (lengths of the flattened tensors) of a parameter tree. -/
def shapesOf (p : ParamSet) : List Nat := p.map (fun kv => kv.2.length)

/-- Two parameter trees have the same structure: identical key sets and
identical tensor shapes (spec §3, ParameterSet invariant). -/
def sameStructure (p q : ParamSet) : Prop := keysOf p = keysOf q ∧ shapesOf p = shapesOf q

/-- Embedding of `jax.tree.map (f, p, q)` over two parameter trees: apply `f` leafwise.
(JAX requires the two trees to share their structure; all theorems below
use it under that hypothesis, where this zip agrees with JAX.) -/
def tmap2 (f : ℚ → ℚ → ℚ) (p q : ParamSet) : ParamSet :=
  List.zipWith (fun a b => (a.1, List.zipWith f a.2 b.2)) p q

/-- The entry of leaf number `k` (as stored in the flattened tree) at flat
index `i`; defaults used only out of range. -/
def leafAt (p : ParamSet) (k i : Nat) : ℚ := ((p.getD k ("", [])).2).getD i 0

theorem sameStructure_refl (p : ParamSet) : sameStructure p p := ⟨rfl, rfl⟩

theorem sameStructure_symm {p q : ParamSet} (h : sameStructure p q) : sameStructure q p :=
  ⟨h.1.symm, h.2.symm⟩

theorem sameStructure_trans {p q r : ParamSet} (h : sameStructure p q)
    (h' : sameStructure q r) : sameStructure p r :=
  ⟨h.1.trans h'.1, h.2.trans h'.2⟩

/-- Applying `tmap2` on trees of the same structure returns a tree of that structure. -/
theorem tmap2_sameStructure (f : ℚ → ℚ → ℚ) :
    ∀ p q : ParamSet, sameStructure p q → sameStructure (tmap2 f p q) p := by
  intro p
  induction p with
  | nil =>
    intro q _
    cases q <;> exact ⟨rfl, rfl⟩
  | cons a p ih =>
    intro q h
    cases q with
    | nil => cases h.1
    | cons b q =>
      obtain ⟨hk, hs⟩ := h
      simp only [keysOf, shapesOf, List.map_cons, List.cons.injEq] at hk hs
      have ihs := ih q ⟨hk.2, hs.2⟩
      constructor
      · simpa [tmap2, keysOf] using ihs.1
      · refine List.cons_eq_cons.mpr ⟨?_, ?_⟩
        · simp [hs.1]
        · simpa [tmap2, shapesOf] using ihs.2

/-! ## Paths and the checkpoint coordinator (`callbacks.py`) -/

/-- A filesystem path, decomposed as `pathlib.Path` exposes it: the
components of `parent` and the final component `name` (an absolute root is
implicit and not modelled). -/
structure PathM where
  parent : List String
  name : String
deriving DecidableEq, Repr

/-- Index of the last occurrence of `c` in `cs`, or `-1` when absent
(Python's `str.rfind`). -/
def rfindChar (c : Char) (cs : List Char) : Int :=
  match cs.reverse.indexOf? c with
  | some j => (cs.length : Int) - 1 - j
  | none => -1

/-- Embedding of `pathlib.PurePath.stem` with CPython's exact semantics: the name with
its last suffix removed, where a suffix starts at the last dot whose index
`i` satisfies `0 < i < len(name) - 1`. -/
def pathStem (name : String) : String :=
  let cs := name.toList
  let i := rfindChar '.' cs
  if 0 < i ∧ i < (cs.length : Int) - 1 then String.mk (cs.take i.toNat) else name

/-- Embedding of `ModelCheckpoint.get_checkpoint_directories(filepath)`: the raw
checkpoint directory `parent/stem` and the EMA checkpoint directory
`parent/stem_ema`, each as its list of components. -/
def getCheckpointDirectories (filepath : PathM) : List String × List String :=
  (filepath.parent ++ [pathStem filepath.name],
   filepath.parent ++ [pathStem filepath.name ++ "_ema"])

/-- The filesystem visible to the checkpoint code: an association list from
directory (component list) to the parameter tree serialized there. -/
abbrev FS := List (List String × ParamSet)

/-- Read a directory's serialized contents, if present. -/
def fsRead (fs : FS) (dir : List String) : Option ParamSet :=
  (fs.find? (fun e => decide (e.1 = dir))).map Prod.snd

/-- Write a directory's contents, replacing whatever was there
(`orbax` save with `force=True`: overwrite rather than error). -/
def fsWrite (fs : FS) (dir : List String) (v : ParamSet) : FS :=
  (dir, v) :: fs.filter (fun e => decide (e.1 ≠ dir))

/-- Delete a directory tree. Errors when the directory does not exist
(`shutil.rmtree` without `ignore_errors`). -/
def rmtree (fs : FS) (dir : List String) : Except String FS :=
  if (fsRead fs dir).isSome then
    Except.ok (fs.filter (fun e => decide (e.1 ≠ dir)))
  else
    Except.error "No such directory"

/-- Embedding of `ModelCheckpoint._remove_checkpoint`: remove the raw directory, then
the EMA directory, both derived by `getCheckpointDirectories`. -/
def removeCheckpoint (fs : FS) (filepath : PathM) : Except String FS :=
  match rmtree fs (getCheckpointDirectories filepath).1 with
  | Except.error e => Except.error e
  | Except.ok fs1 => rmtree fs1 (getCheckpointDirectories filepath).2

/-- Embedding of `ModelCheckpoint._link_checkpoint`: the (source directory, alias
directory) pairs handed to the generic linking capability, raw→raw-alias
then ema→ema-alias. The alias directories are computed inline from
`linkpath` (lines 60–62 of `callbacks.py`), not via
`getCheckpointDirectories`. -/
def linkCheckpoint (filepath linkpath : PathM) : List (List String × List String) :=
  let lpRaw := linkpath.parent ++ [pathStem linkpath.name]
  let lpEma := linkpath.parent ++ [pathStem linkpath.name ++ "_ema"]
  let dirs := getCheckpointDirectories filepath
  [(dirs.1, lpRaw), (dirs.2, lpEma)]

theorem fsRead_fsWrite_self (fs : FS) (dir : List String) (v : ParamSet) :
    fsRead (fsWrite fs dir v) dir = some v := by
  simp [fsRead, fsWrite, List.find?]

theorem fsRead_filter_ne (fs : FS) (dir dir' : List String) (h : dir' ≠ dir) :
    fsRead (fs.filter (fun e => decide (e.1 ≠ dir))) dir' = fsRead fs dir' := by
  induction fs with
  | nil => rfl
  | cons e fs ih =>
    by_cases he : e.1 = dir'
    · have hkeep : e.1 ≠ dir := he ▸ h
      simp only [fsRead] at ih ⊢
      rw [List.filter_cons_of_pos (by simpa using hkeep)]
      rw [List.find?_cons_of_pos _ (by simpa using he), List.find?_cons_of_pos _ (by simpa using he)]
    · by_cases hd : e.1 = dir
      · simp only [fsRead] at ih ⊢
        rw [List.filter_cons_of_neg (by simpa using hd)]
        rw [List.find?_cons_of_neg _ (by simpa using he)]
        exact ih
      · simp only [fsRead] at ih ⊢
        rw [List.filter_cons_of_pos (by simpa using hd)]
        rw [List.find?_cons_of_neg _ (by simpa using he), List.find?_cons_of_neg _ (by simpa using he)]
        exact ih

theorem fsRead_fsWrite_other (fs : FS) (dir dir' : List String) (v : ParamSet)
    (h : dir' ≠ dir) : fsRead (fsWrite fs dir v) dir' = fsRead fs dir' := by
  simp only [fsRead, fsWrite]
  rw [List.find?_cons_of_neg _ (by simpa using Ne.symm h)]
  exact fsRead_filter_ne fs dir dir' h

/-- A handle passed to a logging sink. The `weakref.proxy(self)` in the source
is a non-owning reference to the checkpoint coordinator; it is modelled as
the distinguished `proxy` constructor (as opposed to `copy`, a by-value
copy, which the source never produces). -/
inductive Handle where
  | proxy
  | copy
deriving DecidableEq, Repr

/-- One observable effect of `ModelCheckpoint._save_checkpoint`, in
program order. -/
inductive SaveEvent where
  | write (dir : List String) (contents : ParamSet) (forced : Bool)
  | recordLast (step : Int) (filepath : PathM)
  | notifyLogger (logger : Nat) (h : Handle)
deriving DecidableEq, Repr

/-- The coordinator state mutated by `_save_checkpoint`. -/
structure SaveState where
  fs : FS
  lastGlobalStepSaved : Int
  lastCheckpointSaved : Option PathM
deriving Repr

/-- Embedding of `ModelCheckpoint._save_checkpoint(trainer, filepath)`: write `params`
to the raw directory and `params_ema` to the EMA directory (forced
overwrite), then record the global step and path as last saved, then — in
the primary process only — notify every registered logger with a proxy
handle. Returns the new state and the ordered effect trace. -/
def saveCheckpoint (params paramsEma : ParamSet) (globalStep : Int)
    (isGlobalZero : Bool) (loggers : List Nat) (st : SaveState) (filepath : PathM) :
    SaveState × List SaveEvent :=
  let dirs := getCheckpointDirectories filepath
  let fs1 := fsWrite st.fs dirs.1 params
  let fs2 := fsWrite fs1 dirs.2 paramsEma
  let st' : SaveState :=
    { fs := fs2, lastGlobalStepSaved := globalStep, lastCheckpointSaved := some filepath }
  let notifications :=
    if isGlobalZero then loggers.map (fun l => SaveEvent.notifyLogger l Handle.proxy) else []
  (st',
   [SaveEvent.write dirs.1 params true, SaveEvent.write dirs.2 paramsEma true,
    SaveEvent.recordLast globalStep filepath] ++ notifications)

/-! ## The training module (`diffusion.py`, class `JaxLightning`) -/

/-- The mutable state of `JaxLightning` that the embedded operations
touch: the PRNG key, raw and EMA parameters, and the EMA time constant
computed once in `__init__`. -/
structure Engine where
  key : Key
  params : ParamSet
  paramsEma : ParamSet
  emaTs : ℚ
deriving Repr

/-- Embedding of `JaxLightning.__init__` (the fragment relevant here): `ema_ts` is
fixed at construction as `epochs / ema_folding_count`; parameters are
created later, by `setup`. -/
def mkEngine (epochs emaFoldingCount : ℚ) (key : Key) : Engine :=
  { key := key, params := [], paramsEma := [], emaTs := epochs / emaFoldingCount }

/-- Embedding of `JaxLightning.setup(stage)`: on `'fit'`, split the key, initialize
`params` by `model_init`, and set `params_ema` to `params`; `'val'` and
`'predict'` do nothing; any other stage raises
`ValueError(f'Unknown stage: {stage}')`. -/
def setup (split : Key → Key × Key) (modelInit : Key → ParamSet)
    (st : Engine) (stage : String) : Except String Engine :=
  if stage = "fit" then
    let ks := split st.key
    let p := modelInit ks.2
    Except.ok { st with key := ks.1, params := p, paramsEma := p }
  else if stage = "val" then
    Except.ok st
  else if stage = "predict" then
    Except.ok st
  else
    Except.error ("Unknown stage: " ++ stage)

/-- Embedding of `jnp.remainder(x, y)`: Python-style modulus, `x - y*floor(x/y)`. -/
def remainderQ (x y : ℚ) : ℚ := x - y * ⌊x / y⌋

/-- Embedding of `jnp.linspace(0, 1, n)`: `n` evenly spaced points from 0 to 1, the
endpoint included (so the stride is `1/(n-1)` for `n ≥ 2`). -/
def linspace01 (n : Nat) : List ℚ :=
  if n = 1 then [0]
  else (List.range n).map (fun i => (i : ℚ) / ((n : ℚ) - 1))

/-- The batch of time-fractions built at lines 153–154 of `diffusion.py`:
`u = jnp.remainder(u0 + jnp.linspace(0, 1, N), 1)` for batch size `N` and
drawn offset `u0`. -/
def uFractions (n : Nat) (u0 : ℚ) : List ℚ :=
  (linspace01 n).map (fun v => remainderQ (u0 + v) 1)

/-- The spec's stratification property for the time-fractions: sorted, each
of the `N` fractions is within `1/N` of its rank-order position `i/N`. -/
def stratifiedClaim (n : Nat) (u0 : ℚ) : Prop :=
  ∀ i < n, |((uFractions n u0).insertionSort (· ≤ ·)).getD i 0 - (i : ℚ) / n| ≤ 1 / n

/-- Embedding of `JaxLightning.score(x, t, cond, params, train)` with the opaque
collaborators as arguments: `apply` is `model.apply`, `sigma`/`scale` are
the diffusion process schedules, `dataStd` is `train_data_std`, and
`sqrtQ` stands for `jnp.sqrt` (applied to the two radicands the code
builds). The input is multiplied by `1/sqrt(sigma² + (scale*data_std)²)`,
`cond` is divided by `data_std`, and the model output is divided by
`sqrt(sigma² + scale²*data_std²)`. -/
def score (apply : ParamSet → Tensor → ℚ → Option Tensor → Bool → Tensor)
    (sigma scale : ℚ → ℚ) (dataStd : ℚ) (sqrtQ : ℚ → ℚ)
    (params : ParamSet) (x : Tensor) (t : ℚ) (cond : Option Tensor) (train : Bool) : Tensor :=
  let s := sigma t
  let sc := scale t
  let inputScale := 1 / sqrtQ (s ^ 2 + (sc * dataStd) ^ 2)
  let cond' := cond.map (fun c => c.map (fun v => v / dataStd))
  let out := apply params (x.map (fun v => v * inputScale)) t cond' train
  out.map (fun v => v / sqrtQ (s ^ 2 + sc ^ 2 * dataStd ^ 2))

/-- Embedding of `JaxLightning.step(key, batch, cond, params, params_ema, opt_state)`.
`lossFn` is the loss (value and auxiliary monitor, as the source's `loss`
returns `(flow_loss, {'flow_loss': flow_loss})`), `gradFn` its gradient in
the params argument (`jax.value_and_grad(..., argnums=3, has_aux=True)`),
and `optUpdate` is `optax`'s `optimizer.update`; `optax.apply_updates`
adds the updates to the parameters leafwise. The EMA update is
`ema + (p - ema) / ema_ts` applied leafwise to the *updated* parameters. -/
def step {Ω : Type} (lossFn : Key → Tensor → Option Tensor → ParamSet → ℚ × ℚ)
    (gradFn : Key → Tensor → Option Tensor → ParamSet → ParamSet)
    (optUpdate : ParamSet → Ω → ParamSet × Ω) (emaTs : ℚ)
    (key : Key) (batch : Tensor) (cond : Option Tensor)
    (params paramsEma : ParamSet) (optState : Ω) :
    ℚ × ℚ × ParamSet × ParamSet × Ω :=
  let lm := lossFn key batch cond params
  let grads := gradFn key batch cond params
  let uo := optUpdate grads optState
  let params' := tmap2 (fun p u => p + u) params uo.1
  let paramsEma' := tmap2 (fun p e => e + (p - e) / emaTs) params' paramsEma
  (lm.1, lm.2, params', paramsEma', uo.2)

/-- The scalar outputs assembled by `JaxLightning.training_step`. -/
structure TrainOut where
  loss : ℚ
  lossEma : ℚ
  monitors : ℚ
  monitorsEma : ℚ
deriving Repr

/-- Embedding of `JaxLightning.training_step(batch, batch_idx)`: split the engine key,
run `step` with the training sub-key, then re-evaluate the loss (value
only) against the new `params_ema` with the same training sub-key. -/
def trainingStep {Ω : Type} (split : Key → Key × Key) (condFn : Tensor → Option Tensor)
    (lossFn : Key → Tensor → Option Tensor → ParamSet → ℚ × ℚ)
    (gradFn : Key → Tensor → Option Tensor → ParamSet → ParamSet)
    (optUpdate : ParamSet → Ω → ParamSet × Ω)
    (st : Engine) (optState : Ω) (batch : Tensor) : Engine × Ω × TrainOut :=
  let cond := condFn batch
  let ks := split st.key
  let r := step lossFn gradFn optUpdate st.emaTs ks.2 batch cond st.params st.paramsEma optState
  let lmEma := lossFn ks.2 batch cond r.2.2.2.1
  ({ st with key := ks.1, params := r.2.2.1, paramsEma := r.2.2.2.1 },
   r.2.2.2.2,
   { loss := r.1, lossEma := lmEma.1, monitors := r.2.1, monitorsEma := lmEma.2 })

/-- Embedding of `JaxLightning.sample(key, tmax, cond, x_shape, params=None, ...)`:
when `params` is `None` it defaults to `params_ema`; the resolved
parameter set is closed over in the score callback handed to the external
integrator `samplers.sde_sample` (abstracted as `sdeSample`). -/
def sample (sdeSample : (Tensor → ℚ → Tensor) → Key → List Nat → Tensor)
    (apply : ParamSet → Tensor → ℚ → Option Tensor → Bool → Tensor)
    (sigma scale : ℚ → ℚ) (dataStd : ℚ) (sqrtQ : ℚ → ℚ)
    (st : Engine) (key : Key) (tmax : ℚ) (cond : Option Tensor) (xShape : List Nat)
    (params : Option ParamSet) : Tensor :=
  let ps := params.getD st.paramsEma
  sdeSample (fun x t => score apply sigma scale dataStd sqrtQ ps x t cond false) key xShape

/-- Embedding of `JaxLightning.compute_nll(key, tmax, x_data, params=None)`: when
`params` is `None` it defaults to `params_ema`; `cond` is `None`; the
score closure is handed to the external estimator `samplers.compute_nll`
(abstracted as `nllEstimator`). -/
def computeNll (nllEstimator : (Tensor → ℚ → Tensor) → Key → Tensor → ℚ)
    (apply : ParamSet → Tensor → ℚ → Option Tensor → Bool → Tensor)
    (sigma scale : ℚ → ℚ) (dataStd : ℚ) (sqrtQ : ℚ → ℚ)
    (st : Engine) (key : Key) (tmax : ℚ) (xData : Tensor)
    (params : Option ParamSet) : ℚ :=
  let ps := params.getD st.paramsEma
  nllEstimator (fun x t => score apply sigma scale dataStd sqrtQ ps x t none false) key xData

/-- The checkpoint-monitor configuration value (`cs.CkptMonitor`; the
enum itself lives outside the two source files, so only the member the
code compares against is distinguished, the others carry their metric
name). -/
inductive CkptMonitor where
  | valRelativeErrorEma
  | otherMonitor (value : String)
deriving DecidableEq, Repr

/-- Embedding of `str(monitor.value)` for the monitors the `else` branch can see. -/
def CkptMonitor.valueStr : CkptMonitor → String
  | valRelativeErrorEma => "val_relative_error_ema"
  | otherMonitor v => v

/-- Embedding of `JaxLightning.validation_step` reduced to the returned `loss_val`
scalar: if the configured monitor is `VAL_RELATIVE_ERROR_EMA`, sample with
`params_ema` and return the mean relative error (abstracted as
`emaRelError`, since sampling delegates to the external integrator);
otherwise, during sanity checking return the sentinel `-1.0`, and outside
it echo the trainer's current callback metric for the monitor's name. -/
def validationStep (monitor : CkptMonitor) (sanityChecking : Bool)
    (callbackMetrics : String → ℚ) (emaRelError : ℚ) : ℚ :=
  if monitor = CkptMonitor.valRelativeErrorEma then
    emaRelError
  else if sanityChecking then
    -1
  else
    callbackMetrics monitor.valueStr

/-! ## Helper lemmas -/

theorem fsRead_filter_self (fs : FS) (dir : List String) :
    fsRead (fs.filter (fun e => decide (e.1 ≠ dir))) dir = none := by
  induction fs with
  | nil => rfl
  | cons e fs ih =>
    by_cases hd : e.1 = dir
    · rw [List.filter_cons_of_neg (by simp [hd])]
      exact ih
    · rw [List.filter_cons_of_pos (by simp [hd])]
      simp only [fsRead] at ih ⊢
      rw [List.find?_cons_of_neg _ (by simp [hd])]
      exact ih

theorem stem_ne_stem_ema (s : String) : s ≠ s ++ "_ema" := by
  intro h
  have h2 := congrArg String.length h
  rw [String.length_append] at h2
  have h3 : ("_ema" : String).length = 4 := rfl
  omega

theorem rawDir_ne_emaDir (p : PathM) :
    (getCheckpointDirectories p).1 ≠ (getCheckpointDirectories p).2 := by
  simp only [getCheckpointDirectories, ne_eq, List.append_cancel_left_eq, List.cons.injEq]
  exact fun h => stem_ne_stem_ema _ h.1

/-- Leafwise description of `tmap2` at in-range positions. -/
theorem leafAt_tmap2 (f : ℚ → ℚ → ℚ) (p q : ParamSet) (k i : Nat)
    (hk : k < (tmap2 f p q).length)
    (hi : i < (((tmap2 f p q).getD k ("", [])).2).length) :
    leafAt (tmap2 f p q) k i = f (leafAt p k i) (leafAt q k i) := by
  have hk' := hk
  rw [tmap2, List.length_zipWith] at hk'
  have hkp : k < p.length := lt_of_lt_of_le hk' (min_le_left _ _)
  have hkq : k < q.length := lt_of_lt_of_le hk' (min_le_right _ _)
  have hgd : (tmap2 f p q).getD k ("", []) = (tmap2 f p q)[k] := by
    rw [List.getD_eq_getElem?_getD, List.getElem?_eq_getElem hk]
    rfl
  have hzip : (tmap2 f p q)[k] = (p[k].1, List.zipWith f p[k].2 q[k].2) := by
    simp [tmap2, List.getElem_zipWith]
  rw [hgd, hzip] at hi
  simp only [List.length_zipWith] at hi
  have hip : i < p[k].2.length := lt_of_lt_of_le hi (min_le_left _ _)
  have hiq : i < q[k].2.length := lt_of_lt_of_le hi (min_le_right _ _)
  have hiz : i < (List.zipWith f p[k].2 q[k].2).length := by
    rw [List.length_zipWith]; omega
  rw [leafAt, hgd, hzip]
  rw [List.getD_eq_getElem?_getD, List.getElem?_eq_getElem hiz]
  rw [Option.getD_some, List.getElem_zipWith]
  rw [leafAt, leafAt]
  rw [List.getD_eq_getElem?_getD (p.getD k ("", [])).2,
    List.getD_eq_getElem?_getD (q.getD k ("", [])).2]
  rw [List.getD_eq_getElem?_getD p, List.getElem?_eq_getElem hkp,
    List.getD_eq_getElem?_getD q, List.getElem?_eq_getElem hkq]
  simp only [Option.getD_some]
  rw [List.getElem?_eq_getElem hip, List.getElem?_eq_getElem hiq]
  rfl

/-! ## Claims -/

/-- Claim C1. The claim states the time-fractions follow the fixed-stride
rule `u_i = frac(u0 + i/N)` and are therefore, once sorted, each within
`1/N` of `i/N`. The code instead adds `jnp.linspace(0, 1, N)`, whose
stride is `1/(N-1)` and which includes the endpoint `1`, so the first and
last fractions coincide at `frac(u0)`. At batch size `N = 2` with drawn
offset `u0 = 3/4`, the code produces the fractions `[3/4, 3/4]`, and the
sorted rank-0 fraction `3/4` is not within `1/2` of `0`. -/
theorem c1_time_sampling_not_stratified :
    uFractions 2 (3 / 4) = [3 / 4, 3 / 4] ∧ ¬ stratifiedClaim 2 (3 / 4) := by
  have hf1 : ⌊(3 / 4 + 0 : ℚ) / 1⌋ = 0 := by
    rw [Int.floor_eq_iff]
    push_cast
    norm_num
  have hf2 : ⌊(3 / 4 + 1 : ℚ) / 1⌋ = 1 := by
    rw [Int.floor_eq_iff]
    push_cast
    norm_num
  have hls : linspace01 2 = [0, 1] := by
    rw [linspace01]
    norm_num [List.range_succ]
  have hu : uFractions 2 (3 / 4) = [3 / 4, 3 / 4] := by
    rw [uFractions, hls]
    simp only [List.map_cons, List.map_nil, remainderQ]
    rw [hf1, hf2]
    norm_num
  refine ⟨hu, fun h => ?_⟩
  have h0 := h 0 (by norm_num)
  rw [hu] at h0
  have hsort : (([3 / 4, 3 / 4] : List ℚ).insertionSort (· ≤ ·)) = [3 / 4, 3 / 4] := by
    simp [List.insertionSort, List.orderedInsert]
  rw [hsort] at h0
  norm_num at h0
  rw [abs_of_nonneg (by norm_num : (0 : ℚ) ≤ 3 / 4)] at h0
  norm_num at h0

/-- Claim C2, counterexample. The claim says `setup` does not raise for the
stage `'validate'`; the code recognizes `'val'` instead, so `'validate'`
hits the `ValueError` branch. -/
theorem c2_counterexample :
    setup (fun k => (k, k)) (fun _ => []) (mkEngine 1 1 0) "validate"
      = Except.error "Unknown stage: validate" := by
  simp [setup]

/-- Claim C2, amended. `setup(stage)` fails fast with the descriptive error
`'Unknown stage: <stage>'` for every stage outside `{fit, val, predict}`,
and never raises for those three recognized stages. -/
theorem c2_setup_stage_errors (split : Key → Key × Key) (modelInit : Key → ParamSet)
    (st : Engine) (stage : String) :
    (stage ∉ ["fit", "val", "predict"] →
      setup split modelInit st stage = Except.error ("Unknown stage: " ++ stage))
    ∧ (stage ∈ ["fit", "val", "predict"] →
      (setup split modelInit st stage).isOk = true) := by
  constructor
  · intro h
    have h1 : stage ≠ "fit" := fun he => h (by simp [he])
    have h2 : stage ≠ "val" := fun he => h (by simp [he])
    have h3 : stage ≠ "predict" := fun he => h (by simp [he])
    simp [setup, h1, h2, h3]
  · intro h
    simp only [List.mem_cons, List.not_mem_nil, or_false] at h
    rcases h with h | h | h <;> subst h <;> rfl

/-- Claim C2, witness. Concrete instances: the unrecognized stage `'test'`
errors; the recognized stage `'fit'` succeeds. -/
theorem c2_setup_stage_errors_witness :
    (setup (fun k => (k, k)) (fun _ => []) (mkEngine 1 1 0) "test"
      = Except.error "Unknown stage: test")
    ∧ ((setup (fun k => (k, k)) (fun _ => []) (mkEngine 1 1 0) "fit").isOk = true) :=
  ⟨(c2_setup_stage_errors (fun k => (k, k)) (fun _ => []) (mkEngine 1 1 0) "test").1
      (by simp),
   (c2_setup_stage_errors (fun k => (k, k)) (fun _ => []) (mkEngine 1 1 0) "fit").2
      (by simp)⟩

/-- Claim C3. Every `step` returns `params_ema'` satisfying, leafwise,
`params_ema' = params_ema + (params' − params_ema) / ema_ts`, where
`params'` is the optimizer-updated parameter set returned by the same
step, and `ema_ts = epochs / ema_folding_count` is fixed at
construction. -/
theorem c3_ema_update_formula {Ω : Type}
    (lossFn : Key → Tensor → Option Tensor → ParamSet → ℚ × ℚ)
    (gradFn : Key → Tensor → Option Tensor → ParamSet → ParamSet)
    (optUpdate : ParamSet → Ω → ParamSet × Ω)
    (epochs emaFoldingCount : ℚ) (key0 key : Key) (batch : Tensor) (cond : Option Tensor)
    (params paramsEma : ParamSet) (optState : Ω) (k i : Nat)
    (hk : k < ((step lossFn gradFn optUpdate (mkEngine epochs emaFoldingCount key0).emaTs
      key batch cond params paramsEma optState).2.2.2.1).length)
    (hi : i < (((step lossFn gradFn optUpdate (mkEngine epochs emaFoldingCount key0).emaTs
      key batch cond params paramsEma optState).2.2.2.1).getD k ("", [])).2.length) :
    (mkEngine epochs emaFoldingCount key0).emaTs = epochs / emaFoldingCount
    ∧ leafAt ((step lossFn gradFn optUpdate (mkEngine epochs emaFoldingCount key0).emaTs
        key batch cond params paramsEma optState).2.2.2.1) k i
      = leafAt paramsEma k i
        + (leafAt ((step lossFn gradFn optUpdate (mkEngine epochs emaFoldingCount key0).emaTs
            key batch cond params paramsEma optState).2.2.1) k i
          - leafAt paramsEma k i) / (epochs / emaFoldingCount) :=
  ⟨rfl, leafAt_tmap2 _ _ _ k i hk hi⟩

/-- Claim C3, witness. One leaf, `ema_ts = 2`: updated parameter `2`, old
EMA `3`, new EMA `3 + (2 − 3)/2`. -/
theorem c3_ema_update_formula_witness :
    (mkEngine 2 1 0).emaTs = 2 / 1
    ∧ leafAt ((step (fun _ _ _ _ => (0, 0)) (fun _ _ _ p => p) (fun g s => (g, s))
        (mkEngine 2 1 0).emaTs 0 [] none [("w", [1])] [("w", [3])] ()).2.2.2.1) 0 0
      = leafAt [("w", [3])] 0 0
        + (leafAt ((step (fun _ _ _ _ => (0, 0)) (fun _ _ _ p => p) (fun g s => (g, s))
            (mkEngine 2 1 0).emaTs 0 [] none [("w", [1])] [("w", [3])] ()).2.2.1) 0 0
          - leafAt [("w", [3])] 0 0) / (2 / 1) :=
  c3_ema_update_formula (fun _ _ _ _ => (0, 0)) (fun _ _ _ p => p) (fun g s => (g, s))
    2 1 0 0 [] none [("w", [1])] [("w", [3])] () 0 0 (by decide) (by decide)

/-- Claim C4. The raw/EMA checkpoint directory derivation is the pure
function `p ↦ (parent(p)/stem(p), parent(p)/stem(p)_ema)`; on
`/a/b/ckpt.tmp` it yields `/a/b/ckpt` and `/a/b/ckpt_ema`; save writes to,
remove deletes, and link pairs exactly the directories this rule
derives. -/
theorem c4_checkpoint_directory_rule (p q f l : PathM) (fs fs' : FS)
    (params paramsEma : ParamSet) (gs : Int) (gz : Bool) (loggers : List Nat)
    (sst : SaveState)
    (hrm : removeCheckpoint fs q = Except.ok fs') :
    getCheckpointDirectories p
      = (p.parent ++ [pathStem p.name], p.parent ++ [pathStem p.name ++ "_ema"])
    ∧ getCheckpointDirectories ⟨["a", "b"], "ckpt.tmp"⟩
      = (["a", "b", "ckpt"], ["a", "b", "ckpt_ema"])
    ∧ fsRead fs' (getCheckpointDirectories q).1 = none
    ∧ fsRead fs' (getCheckpointDirectories q).2 = none
    ∧ ((saveCheckpoint params paramsEma gs gz loggers sst f).2).take 2
      = [SaveEvent.write (getCheckpointDirectories f).1 params true,
         SaveEvent.write (getCheckpointDirectories f).2 paramsEma true]
    ∧ linkCheckpoint f l
      = [((getCheckpointDirectories f).1, (getCheckpointDirectories l).1),
         ((getCheckpointDirectories f).2, (getCheckpointDirectories l).2)] := by
  have hremove : fsRead fs' (getCheckpointDirectories q).1 = none
      ∧ fsRead fs' (getCheckpointDirectories q).2 = none := by
    rw [removeCheckpoint] at hrm
    cases h1 : rmtree fs (getCheckpointDirectories q).1 with
    | error e => rw [h1] at hrm; cases hrm
    | ok fs1 =>
      rw [h1] at hrm
      simp only [rmtree] at h1 hrm
      by_cases hs1 : (fsRead fs (getCheckpointDirectories q).1).isSome
      · rw [if_pos hs1] at h1
        have hfs1 : fs.filter (fun e => decide (e.1 ≠ (getCheckpointDirectories q).1)) = fs1 :=
          (Except.ok.injEq _ _).mp h1
        by_cases hs2 : (fsRead fs1 (getCheckpointDirectories q).2).isSome
        · rw [if_pos hs2] at hrm
          have hfs' : fs1.filter (fun e => decide (e.1 ≠ (getCheckpointDirectories q).2)) = fs' :=
            (Except.ok.injEq _ _).mp hrm
          constructor
          · rw [← hfs', fsRead_filter_ne fs1 _ _ (rawDir_ne_emaDir q), ← hfs1]
            exact fsRead_filter_self fs _
          · rw [← hfs']
            exact fsRead_filter_self fs1 _
        · rw [if_neg hs2] at hrm
          cases hrm
      · rw [if_neg hs1] at h1
        cases h1
  exact ⟨rfl, rfl, hremove.1, hremove.2, rfl, rfl⟩

/-- Claim C4, witness. Removing the checkpoint pair derived from
`/a/b/ckpt.tmp` from a filesystem holding exactly those two directories
leaves both unreadable, and the derivation yields `/a/b/ckpt` and
`/a/b/ckpt_ema`. -/
theorem c4_checkpoint_directory_rule_witness :
    fsRead ([] : FS) (getCheckpointDirectories ⟨["a", "b"], "ckpt.tmp"⟩).1 = none
    ∧ fsRead ([] : FS) (getCheckpointDirectories ⟨["a", "b"], "ckpt.tmp"⟩).2 = none
    ∧ getCheckpointDirectories ⟨["a", "b"], "ckpt.tmp"⟩
      = (["a", "b", "ckpt"], ["a", "b", "ckpt_ema"]) := by
  have h := c4_checkpoint_directory_rule ⟨["a", "b"], "ckpt.tmp"⟩ ⟨["a", "b"], "ckpt.tmp"⟩
    ⟨["a", "b"], "ckpt.tmp"⟩ ⟨["a", "b"], "ckpt.tmp"⟩
    [(["a", "b", "ckpt"], []), (["a", "b", "ckpt_ema"], [])] []
    [] [] 0 true [] ⟨[], 0, none⟩ (by rfl)
  exact ⟨h.2.2.1, h.2.2.2.1, h.2.1⟩

/-- Claim C5. `score` returns the opaque model's output on the input
rescaled by `1/sqrt(sigma² + (scale·data_std)²)`, divided by
`sqrt(sigma² + scale²·data_std²)`, with `cond` divided by `data_std`; the
two scaling factors are equal (their radicands agree); and when the model
preserves tensor shape, so does `score`. -/
theorem c5_score_scaling
    (apply : ParamSet → Tensor → ℚ → Option Tensor → Bool → Tensor)
    (sigma scale : ℚ → ℚ) (dataStd : ℚ) (sqrtQ : ℚ → ℚ)
    (params : ParamSet) (x : Tensor) (t : ℚ) (cond : Option Tensor) (train : Bool)
    (hlen : ∀ ps y u c tr, (apply ps y u c tr).length = y.length) :
    score apply sigma scale dataStd sqrtQ params x t cond train
      = (apply params
          (x.map (fun v => v * (1 / sqrtQ (sigma t ^ 2 + (scale t * dataStd) ^ 2)))) t
          (cond.map (fun c => c.map (fun v => v / dataStd))) train).map
          (fun v => v / sqrtQ (sigma t ^ 2 + scale t ^ 2 * dataStd ^ 2))
    ∧ sqrtQ (sigma t ^ 2 + (scale t * dataStd) ^ 2)
      = sqrtQ (sigma t ^ 2 + scale t ^ 2 * dataStd ^ 2)
    ∧ (score apply sigma scale dataStd sqrtQ params x t cond train).length = x.length := by
  refine ⟨rfl, congrArg sqrtQ (by ring), ?_⟩
  simp only [score, List.length_map, hlen]

/-- Claim C5, witness. Identity model, `sigma = 1`, `scale = 0`,
`data_std = 1`, input `[2]`. -/
theorem c5_score_scaling_witness :
    score (fun _ y _ _ _ => y) (fun _ => 1) (fun _ => 0) 1 (fun v => v)
        [("w", [0])] [2] 0 none false
      = ((fun (_ : ParamSet) (y : Tensor) (_ : ℚ) (_ : Option Tensor) (_ : Bool) => y)
          [("w", [0])]
          (([2] : Tensor).map (fun v =>
            v * (1 / (fun v : ℚ => v) ((fun _ : ℚ => (1 : ℚ)) 0 ^ 2
              + ((fun _ : ℚ => (0 : ℚ)) 0 * 1) ^ 2)))) 0
          ((none : Option Tensor).map (fun c => c.map (fun v => v / 1))) false).map
          (fun v => v / (fun v : ℚ => v) ((fun _ : ℚ => (1 : ℚ)) 0 ^ 2
            + (fun _ : ℚ => (0 : ℚ)) 0 ^ 2 * 1 ^ 2))
    ∧ (fun v : ℚ => v) ((fun _ : ℚ => (1 : ℚ)) 0 ^ 2 + ((fun _ : ℚ => (0 : ℚ)) 0 * 1) ^ 2)
      = (fun v : ℚ => v) ((fun _ : ℚ => (1 : ℚ)) 0 ^ 2 + (fun _ : ℚ => (0 : ℚ)) 0 ^ 2 * 1 ^ 2)
    ∧ (score (fun _ y _ _ _ => y) (fun _ => 1) (fun _ => 0) 1 (fun v => v)
        [("w", [0])] [2] 0 none false).length = ([2] : Tensor).length :=
  c5_score_scaling (fun _ y _ _ _ => y) (fun _ => 1) (fun _ => 0) 1 (fun v => v)
    [("w", [0])] [2] 0 none false (fun _ _ _ _ _ => rfl)

/-- Claim C6. `ema` and `raw` have identical key sets and shapes: after
`setup('fit')` the EMA set is the raw set itself, and `step` preserves the
shared structure whenever the optimizer update it applies matches the
parameters' structure. -/
theorem c6_params_ema_same_structure {Ω : Type}
    (split : Key → Key × Key) (modelInit : Key → ParamSet) (st e' : Engine)
    (lossFn : Key → Tensor → Option Tensor → ParamSet → ℚ × ℚ)
    (gradFn : Key → Tensor → Option Tensor → ParamSet → ParamSet)
    (optUpdate : ParamSet → Ω → ParamSet × Ω) (emaTs : ℚ)
    (key : Key) (batch : Tensor) (cond : Option Tensor)
    (params paramsEma : ParamSet) (optState : Ω)
    (hfit : setup split modelInit st "fit" = Except.ok e')
    (hpe : sameStructure params paramsEma)
    (hupd : sameStructure params (optUpdate (gradFn key batch cond params) optState).1) :
    e'.params = e'.paramsEma
    ∧ sameStructure e'.params e'.paramsEma
    ∧ sameStructure
        ((step lossFn gradFn optUpdate emaTs key batch cond params paramsEma optState).2.2.1)
        ((step lossFn gradFn optUpdate emaTs key batch cond params paramsEma
          optState).2.2.2.1) := by
  have hsetup : e'.params = e'.paramsEma := by
    simp only [setup, if_pos] at hfit
    have h := (Except.ok.injEq _ _).mp hfit
    rw [← h]
  have hps : sameStructure
      (tmap2 (fun p u => p + u) params (optUpdate (gradFn key batch cond params) optState).1)
      params :=
    tmap2_sameStructure _ _ _ hupd
  have hpe' : sameStructure
      (tmap2 (fun p u => p + u) params (optUpdate (gradFn key batch cond params) optState).1)
      paramsEma :=
    sameStructure_trans hps hpe
  have hema := tmap2_sameStructure (fun p e => e + (p - e) / emaTs) _ _ hpe'
  refine ⟨hsetup, ?_, sameStructure_symm hema⟩
  rw [hsetup]
  exact sameStructure_refl _

/-- Claim C6, witness. A one-leaf tree through `setup('fit')` and one
`step` with a structure-preserving optimizer. -/
theorem c6_params_ema_same_structure_witness :
    (Engine.mk 0 [("w", [0])] [("w", [0])] (1 / 1)).params
      = (Engine.mk 0 [("w", [0])] [("w", [0])] (1 / 1)).paramsEma
    ∧ sameStructure (Engine.mk 0 [("w", [0])] [("w", [0])] (1 / 1)).params
        (Engine.mk 0 [("w", [0])] [("w", [0])] (1 / 1)).paramsEma
    ∧ sameStructure
        ((step (fun _ _ _ _ => (0, 0)) (fun _ _ _ p => p) (fun g s => (g, s)) 1
          0 [] none [("w", [1])] [("w", [2])] ()).2.2.1)
        ((step (fun _ _ _ _ => (0, 0)) (fun _ _ _ p => p) (fun g s => (g, s)) 1
          0 [] none [("w", [1])] [("w", [2])] ()).2.2.2.1) :=
  c6_params_ema_same_structure (fun k => (k, k)) (fun _ => [("w", [0])]) (mkEngine 1 1 0)
    (Engine.mk 0 [("w", [0])] [("w", [0])] (1 / 1))
    (fun _ _ _ _ => (0, 0)) (fun _ _ _ p => p) (fun g s => (g, s)) 1
    0 [] none [("w", [1])] [("w", [2])] () rfl ⟨rfl, rfl⟩ ⟨rfl, rfl⟩

/-- Claim C7. In `training_step`, the EMA loss is the loss function
evaluated at the *same* already-split training key that was passed to
`step` — the key under which the raw loss of that step was computed — and
against the `params_ema` that this very step returned. -/
theorem c7_ema_loss_same_key {Ω : Type}
    (split : Key → Key × Key) (condFn : Tensor → Option Tensor)
    (lossFn : Key → Tensor → Option Tensor → ParamSet → ℚ × ℚ)
    (gradFn : Key → Tensor → Option Tensor → ParamSet → ParamSet)
    (optUpdate : ParamSet → Ω → ParamSet × Ω)
    (st : Engine) (optState : Ω) (batch : Tensor) :
    (trainingStep split condFn lossFn gradFn optUpdate st optState batch).2.2.lossEma
      = (lossFn (split st.key).2 batch (condFn batch)
          (trainingStep split condFn lossFn gradFn optUpdate st optState batch).1.paramsEma).1
    ∧ (trainingStep split condFn lossFn gradFn optUpdate st optState batch).2.2.loss
      = (lossFn (split st.key).2 batch (condFn batch) st.params).1
    ∧ (trainingStep split condFn lossFn gradFn optUpdate st optState batch).1.paramsEma
      = (step lossFn gradFn optUpdate st.emaTs (split st.key).2 batch (condFn batch)
          st.params st.paramsEma optState).2.2.2.1 :=
  ⟨rfl, rfl, rfl⟩

/-- Claim C8. `_save_checkpoint` writes `params` to the raw directory and
`params_ema` to the EMA directory as forced overwrites (readable back
whatever the prior filesystem contents), records the step and path after
both writes, and notifies each registered logger exactly once with a
proxy handle in the primary process only. -/
theorem c8_save_checkpoint (params paramsEma : ParamSet) (gs : Int) (gz : Bool)
    (loggers : List Nat) (sst : SaveState) (filepath : PathM) :
    fsRead (saveCheckpoint params paramsEma gs gz loggers sst filepath).1.fs
        (getCheckpointDirectories filepath).1 = some params
    ∧ fsRead (saveCheckpoint params paramsEma gs gz loggers sst filepath).1.fs
        (getCheckpointDirectories filepath).2 = some paramsEma
    ∧ (saveCheckpoint params paramsEma gs gz loggers sst filepath).1.lastGlobalStepSaved = gs
    ∧ (saveCheckpoint params paramsEma gs gz loggers sst
        filepath).1.lastCheckpointSaved = some filepath
    ∧ (saveCheckpoint params paramsEma gs gz loggers sst filepath).2.take 3
      = [SaveEvent.write (getCheckpointDirectories filepath).1 params true,
         SaveEvent.write (getCheckpointDirectories filepath).2 paramsEma true,
         SaveEvent.recordLast gs filepath]
    ∧ (saveCheckpoint params paramsEma gs gz loggers sst filepath).2.drop 3
      = (if gz then loggers.map (fun l => SaveEvent.notifyLogger l Handle.proxy)
         else []) := by
  refine ⟨?_, ?_, rfl, rfl, rfl, rfl⟩
  · show fsRead (fsWrite (fsWrite sst.fs (getCheckpointDirectories filepath).1 params)
      (getCheckpointDirectories filepath).2 paramsEma) (getCheckpointDirectories filepath).1
      = some params
    rw [fsRead_fsWrite_other _ _ _ _ (rawDir_ne_emaDir filepath)]
    exact fsRead_fsWrite_self _ _ _
  · exact fsRead_fsWrite_self _ _ _

/-- Claim C9. When `params` is omitted (`None`), both `sample` and
`compute_nll` use the EMA parameter set for the score closure — and not
the raw set: replacing the raw parameters changes neither result. -/
theorem c9_default_params_ema
    (sdeSample : (Tensor → ℚ → Tensor) → Key → List Nat → Tensor)
    (nllEstimator : (Tensor → ℚ → Tensor) → Key → Tensor → ℚ)
    (apply : ParamSet → Tensor → ℚ → Option Tensor → Bool → Tensor)
    (sigma scale : ℚ → ℚ) (dataStd : ℚ) (sqrtQ : ℚ → ℚ)
    (st : Engine) (key : Key) (tmax : ℚ) (cond : Option Tensor) (xShape : List Nat)
    (xData : Tensor) (rawParams : ParamSet) :
    sample sdeSample apply sigma scale dataStd sqrtQ st key tmax cond xShape none
      = sample sdeSample apply sigma scale dataStd sqrtQ st key tmax cond xShape
          (some st.paramsEma)
    ∧ computeNll nllEstimator apply sigma scale dataStd sqrtQ st key tmax xData none
      = computeNll nllEstimator apply sigma scale dataStd sqrtQ st key tmax xData
          (some st.paramsEma)
    ∧ sample sdeSample apply sigma scale dataStd sqrtQ { st with params := rawParams }
        key tmax cond xShape none
      = sample sdeSample apply sigma scale dataStd sqrtQ st key tmax cond xShape none
    ∧ computeNll nllEstimator apply sigma scale dataStd sqrtQ { st with params := rawParams }
        key tmax xData none
      = computeNll nllEstimator apply sigma scale dataStd sqrtQ st key tmax xData none :=
  ⟨rfl, rfl, rfl, rfl⟩

/-- Claim C10. When the configured monitor is not the EMA relative-error
monitor: during sanity checking, `validation_step` returns the sentinel
`-1.0`; outside it, it echoes the trainer's current callback metric for
the monitor rather than computing a new one. -/
theorem c10_validation_step (monitor : CkptMonitor) (sanityChecking : Bool)
    (callbackMetrics : String → ℚ) (emaRelError : ℚ)
    (hm : monitor ≠ CkptMonitor.valRelativeErrorEma) :
    (sanityChecking = true →
      validationStep monitor sanityChecking callbackMetrics emaRelError = -1)
    ∧ (sanityChecking = false →
      validationStep monitor sanityChecking callbackMetrics emaRelError
        = callbackMetrics monitor.valueStr) := by
  constructor <;> intro hs <;> subst hs <;> simp [validationStep, hm]

/-- Claim C10, witness. A non-EMA monitor: sentinel `-1` during sanity
checking, the callback metric (here constantly `7`) outside it. -/
theorem c10_validation_step_witness :
    validationStep (CkptMonitor.otherMonitor "train_loss") true (fun _ => 7) 5 = -1
    ∧ validationStep (CkptMonitor.otherMonitor "train_loss") false (fun _ => 7) 5 = 7 :=
  ⟨(c10_validation_step (CkptMonitor.otherMonitor "train_loss") true (fun _ => 7) 5
      (by simp)).1 rfl,
   (c10_validation_step (CkptMonitor.otherMonitor "train_loss") false (fun _ => 7) 5
      (by simp)).2 rfl⟩

end UserFM
